import Mathlib

/-!
Shallow embedding of the VoiceflowMobile repository (a React Native voice-memo
app) for checking its natural-language specification.

Modelling conventions:
* JS strings are lists of characters (`Str`).
* JS `Date` values are epoch-millisecond timestamps, modelled as `Nat`; the
  current time is passed explicitly to each operation that reads the clock.
* The AsyncStorage cell holding the recordings list is modelled by
  `RecordingsCell`: the key may be absent, hold a string JSON.parse rejects,
  or hold a serialized list of records.
* Asynchronous functions that catch every exception are modelled as total
  functions; functions that can reject are modelled with `Except`.
-/

namespace VoiceflowMobile

/-- JS strings, modelled as lists of characters. -/
abbrev Str := List Char

/-! ## generateTitle (src/src/services/storageService.ts lines 172-181) -/

/-- Whitespace removed by JS `String.prototype.trim` (ASCII subset; the app
only ever feeds ASCII transcripts through this path). -/
def jsWs (c : Char) : Bool := c = ' ' || c = '\t' || c = '\n' || c = '\r'

/-- JS `s.trim()`: drop leading and trailing whitespace. -/
def trimStr (t : Str) : Str :=
  ((t.dropWhile jsWs).reverse.dropWhile jsWs).reverse

/-- Sentence terminators of the regex `[.!?]`. -/
def sentenceTerm (c : Char) : Bool := c = '.' || c = '!' || c = '?'

/-- JS `text.split(/[.!?]/)[0]`: the prefix of `text` before the first
sentence terminator (the whole text when none occurs). -/
def firstSentence (t : Str) : Str := t.takeWhile (fun c => !sentenceTerm c)

/-- The literal `"..."` appended in the fallback branch. -/
def ellipsis : Str := ['.', '.', '.']

/-- StorageService.generateTitle: the trimmed first sentence when its length
is in 1..50, otherwise `text.substring(0, 47)` plus `"..."` exactly when the
text is longer than 47 characters. -/
def generateTitle (transcriptionText : Str) : Str :=
  let firstSent := trimStr (firstSentence transcriptionText)
  if 0 < firstSent.length ∧ firstSent.length ≤ 50 then firstSent
  else
    transcriptionText.take 47 ++
      (if 47 < transcriptionText.length then ellipsis else [])

/-- Input falsifying the untrimmed reading of the fallback condition in C1:
48 spaces followed by `"ab"`, 50 characters, no sentence terminator. -/
def cexTitleInput : Str := List.replicate 48 ' ' ++ ['a', 'b']

/-- C1 counterexample: `cexTitleInput` is 50 characters long and has no
sentence terminator anywhere (in particular none before position 50), yet
`generateTitle` returns the two-character trimmed first sentence `"ab"`,
not the claimed first 47 characters followed by `"..."`. -/
theorem generateTitle_truncation_cex :
    47 < cexTitleInput.length ∧
    (cexTitleInput.take 50).all (fun c => !sentenceTerm c) = true ∧
    generateTitle cexTitleInput = ['a', 'b'] ∧
    generateTitle cexTitleInput ≠ cexTitleInput.take 47 ++ ellipsis := by
  decide

/-- C1 (amended): for text containing a sentence terminator whose trimmed
first sentence has length 1..50, the result is that trimmed first sentence;
for text longer than 47 characters whose trimmed first sentence is empty or
longer than 50 characters, the result is the first 47 characters plus
`"..."`. -/
theorem generateTitle_spec (t : Str) :
    (t.any sentenceTerm = true →
      0 < (trimStr (firstSentence t)).length →
      (trimStr (firstSentence t)).length ≤ 50 →
      generateTitle t = trimStr (firstSentence t)) ∧
    (47 < t.length →
      ((trimStr (firstSentence t)).length = 0 ∨
        50 < (trimStr (firstSentence t)).length) →
      generateTitle t = t.take 47 ++ ellipsis) := by
  constructor
  · intro _ h1 h2
    simp only [generateTitle]
    rw [if_pos ⟨h1, h2⟩]
  · intro hlen hcond
    simp only [generateTitle]
    rw [if_neg (by omega), if_pos hlen]

/-- Witness for C1: instantiates `generateTitle_spec` at
`"Hello world. Rest"`, whose trimmed first sentence is `"Hello world"`. -/
theorem generateTitle_spec_witness :
    generateTitle ("Hello world. Rest".toList) = "Hello world".toList := by
  have h := (generateTitle_spec ("Hello world. Rest".toList)).1
    (by decide) (by decide) (by decide)
  rw [h]; decide

/-- C10: an input whose first sentence trims to empty and whose length is at
most 47 comes back unchanged (in particular the empty string maps to the
empty string, so a title may be empty), and in the fallback branch `"..."`
is appended exactly when the input is longer than 47 characters. -/
theorem generateTitle_empty_cases (t : Str) :
    generateTitle [] = [] ∧
    (trimStr (firstSentence t) = [] → t.length ≤ 47 → generateTitle t = t) ∧
    ((trimStr (firstSentence t) = [] ∨
        50 < (trimStr (firstSentence t)).length) →
      generateTitle t = t.take 47 ++
        (if 47 < t.length then ellipsis else [])) := by
  refine ⟨by decide, ?_, ?_⟩
  · intro h hle
    simp only [generateTitle]
    rw [if_neg (by simp [h]), if_neg (by omega), List.append_nil,
      List.take_of_length_le hle]
  · intro hcond
    simp only [generateTitle]
    rw [if_neg (by rcases hcond with h | h <;> simp [h])]

/-- Witness for C10: instantiates `generateTitle_empty_cases` at `" ."`,
whose first sentence `" "` trims to empty and whose length is 2. -/
theorem generateTitle_empty_cases_witness :
    generateTitle [' ', '.'] = [' ', '.'] :=
  (generateTitle_empty_cases [' ', '.']).2.1 (by decide) (by decide)

/-! ## Storage data model (src/src/services/storageService.ts) -/

/-- A `{start, end, text}` transcript segment. (`end` is a Lean keyword, so
the field is named `stop`; numeric payloads are carried abstractly as `Nat`,
no claim computes on them.) -/
structure Segment where
  start : Nat
  stop : Nat
  text : Str
deriving DecidableEq

/-- TranscriptionResult: text plus optional metadata. -/
structure TranscriptionResult where
  text : Str
  duration : Option Nat
  confidence : Option Nat
  segments : Option (List Segment)
deriving DecidableEq

/-- The persisted Recording entity. `Date` fields are epoch milliseconds. -/
structure Recording where
  id : Str
  title : Str
  audioUri : Str
  transcription : TranscriptionResult
  createdAt : Nat
  updatedAt : Nat
  tags : Option (List Str)
deriving DecidableEq

/-- The argument of saveRecording: a Recording without id and timestamps
(TypeScript `Omit<Recording, 'id' | 'createdAt' | 'updatedAt'>`). -/
structure RecordingDraft where
  title : Str
  audioUri : Str
  transcription : TranscriptionResult
  tags : Option (List Str)
deriving DecidableEq

/-- The serialized form of a Recording as stored by JSON.stringify: the two
Date fields become ISO strings. An ISO string denotes exactly one
millisecond timestamp, so the serialized field is modelled by the timestamp
it denotes. -/
structure RecordingSer where
  id : Str
  title : Str
  audioUri : Str
  transcription : TranscriptionResult
  createdAt : Nat
  updatedAt : Nat
  tags : Option (List Str)
deriving DecidableEq

/-- JSON.stringify of one Recording (dates serialized to ISO strings). -/
def serializeRec (r : Recording) : RecordingSer :=
  { id := r.id, title := r.title, audioUri := r.audioUri,
    transcription := r.transcription, createdAt := r.createdAt,
    updatedAt := r.updatedAt, tags := r.tags }

/-- The `recordings.map` step of getAllRecordings (lines 47-51): rebuild the
record with `new Date(...)` applied to the two serialized date fields. -/
def rehydrateRec (s : RecordingSer) : Recording :=
  { id := s.id, title := s.title, audioUri := s.audioUri,
    transcription := s.transcription, createdAt := s.createdAt,
    updatedAt := s.updatedAt, tags := s.tags }

/-- The AsyncStorage cell under `RECORDINGS_KEY`, as observed through
`getItem` followed by `JSON.parse`: the key may be absent (`getItem`
returned null), hold a string `JSON.parse` throws on, or hold a serialized
record list. I/O failures of AsyncStorage itself are outside the model. -/
inductive RecordingsCell where
  | absent
  | malformed
  | stored (rs : List RecordingSer)
deriving DecidableEq

/-- getAllRecordings (lines 40-56): empty list when nothing is persisted,
empty list when JSON.parse throws (caught and logged), otherwise the stored
records with their date fields rehydrated. Total: it never raises. -/
def getAllRecordings : RecordingsCell → List Recording
  | .absent => []
  | .malformed => []
  | .stored rs => rs.map rehydrateRec

/-- Decimal rendering, structurally recursive on a fuel bound so that it
evaluates by kernel reduction; any `fuel > n` is enough. -/
def natToDecCore (fuel : Nat) (n : Nat) : Str :=
  match fuel with
  | 0 => []
  | fuel + 1 =>
    if n < 10 then [Nat.digitChar n]
    else natToDecCore fuel (n / 10) ++ [Nat.digitChar (n % 10)]

/-- JS `Number.prototype.toString()` (radix 10) on the nonnegative integer
`Date.now()`: its decimal digit string. -/
def natToDec (n : Nat) : Str := natToDecCore (n + 1) n

/-- The record built by saveRecording (lines 21-27): a fresh id from
`Date.now().toString()` and both timestamps set to now. -/
def mkRecording (draft : RecordingDraft) (now : Nat) : Recording :=
  { id := natToDec now, title := draft.title, audioUri := draft.audioUri,
    transcription := draft.transcription, createdAt := now,
    updatedAt := now, tags := draft.tags }

/-- saveRecording (lines 19-38): build the new record, `unshift` it onto the
current list, write the whole list back, return the stored record. `now` is
the clock value during the call. -/
def saveRecording (draft : RecordingDraft) (now : Nat)
    (cell : RecordingsCell) : Recording × RecordingsCell :=
  let newRecording := mkRecording draft now
  let recordings := newRecording :: getAllRecordings cell
  (newRecording, .stored (recordings.map serializeRec))

/-- getRecording (lines 58-66): `find` over the list, null when absent. -/
def getRecording (id : Str) (cell : RecordingsCell) : Option Recording :=
  (getAllRecordings cell).find? (fun r => r.id == id)

/-- TypeScript `Partial<Recording>`: every field optional; a `some` field
models a key present in the updates object. -/
structure RecordingPatch where
  id : Option Str
  title : Option Str
  audioUri : Option Str
  transcription : Option TranscriptionResult
  createdAt : Option Nat
  updatedAt : Option Nat
  tags : Option (Option (List Str))
deriving DecidableEq

/-- The spread `{...r, ...updates, updatedAt: new Date()}` (lines 75-79):
every key present in the updates object overrides the stored field — id and
createdAt included — and updatedAt is then overwritten with now regardless
of the patch. -/
def applyPatch (r : Recording) (p : RecordingPatch) (now : Nat) : Recording :=
  { id := p.id.getD r.id,
    title := p.title.getD r.title,
    audioUri := p.audioUri.getD r.audioUri,
    transcription := p.transcription.getD r.transcription,
    createdAt := p.createdAt.getD r.createdAt,
    updatedAt := now,
    tags := p.tags.getD r.tags }

/-- `findIndex` plus in-place replacement, written recursively: replace the
first record whose id matches and report it; leave the list unchanged when
no record matches. -/
def updateList (id : Str) (p : RecordingPatch) (now : Nat) :
    List Recording → Option Recording × List Recording
  | [] => (none, [])
  | r :: rest =>
    if r.id == id then (some (applyPatch r p now), applyPatch r p now :: rest)
    else
      let (res, rest') := updateList id p now rest
      (res, r :: rest')

/-- updateRecording (lines 68-87): when no record matches, return null
without writing; otherwise replace the matched record and write the whole
list back. -/
def updateRecording (id : Str) (p : RecordingPatch) (now : Nat)
    (cell : RecordingsCell) : Option Recording × RecordingsCell :=
  match updateList id p now (getAllRecordings cell) with
  | (none, _) => (none, cell)
  | (some r, rs) => (some r, .stored (rs.map serializeRec))

/-- deleteRecording (lines 89-100): filter out every record with the given
id and write the result back. On the success path it returns `true`
unconditionally — `false` arises only from an AsyncStorage I/O error, which
is outside the model. -/
def deleteRecording (id : Str) (cell : RecordingsCell) :
    Bool × RecordingsCell :=
  let filtered := (getAllRecordings cell).filter (fun r => r.id != id)
  (true, .stored (filtered.map serializeRec))

/-- A sequence of saveRecording calls, threading the cell. -/
def saveAll : List (RecordingDraft × Nat) → RecordingsCell → RecordingsCell
  | [], cell => cell
  | (d, t) :: rest, cell => saveAll rest (saveRecording d t cell).2

/-! ## Storage helper lemmas -/

theorem rehydrate_serialize (r : Recording) :
    rehydrateRec (serializeRec r) = r := rfl

theorem getAll_stored_serialize (rs : List Recording) :
    getAllRecordings (.stored (rs.map serializeRec)) = rs := by
  simp [getAllRecordings, List.map_map, Function.comp_def, rehydrate_serialize]

theorem getAll_save (d : RecordingDraft) (t : Nat) (c : RecordingsCell) :
    getAllRecordings (saveRecording d t c).2 =
      mkRecording d t :: getAllRecordings c := by
  simpa [saveRecording] using
    getAll_stored_serialize (mkRecording d t :: getAllRecordings c)

theorem getAll_saveAll (l : List (RecordingDraft × Nat)) :
    ∀ c, getAllRecordings (saveAll l c) =
      (l.map (fun p => mkRecording p.1 p.2)).reverse ++ getAllRecordings c := by
  induction l with
  | nil => intro c; simp [saveAll]
  | cons p rest ih =>
    intro c
    obtain ⟨d, t⟩ := p
    simp [saveAll, ih, getAll_save]

/-- Reading a rendered decimal back: fold of its digit values. -/
def decDigit (c : Char) : Nat := c.toNat - 48

def decodeDec (s : Str) : Nat := s.foldl (fun acc c => 10 * acc + decDigit c) 0

theorem decodeDec_append (l : Str) (c : Char) :
    decodeDec (l ++ [c]) = 10 * decodeDec l + decDigit c := by
  simp [decodeDec, List.foldl_append]

theorem decDigit_digitChar {n : Nat} (h : n < 10) :
    decDigit (Nat.digitChar n) = n := by
  interval_cases n <;> rfl

theorem decodeDec_natToDecCore :
    ∀ fuel n, n < fuel → decodeDec (natToDecCore fuel n) = n := by
  intro fuel
  induction fuel with
  | zero => intro n h; omega
  | succ f ih =>
    intro n h
    rw [natToDecCore]
    split
    · next h10 => simp [decodeDec, decDigit_digitChar h10]
    · next h10 =>
      rw [decodeDec_append, ih (n / 10) (by omega),
        decDigit_digitChar (Nat.mod_lt n (by omega))]
      omega

theorem decodeDec_natToDec (n : Nat) : decodeDec (natToDec n) = n :=
  decodeDec_natToDecCore (n + 1) n (by omega)

theorem natToDec_injective : Function.Injective natToDec := by
  intro a b h
  have ha := decodeDec_natToDec a
  rw [h, decodeDec_natToDec b] at ha
  exact ha.symm

/-- A concrete empty transcription payload for test inputs. -/
def trEmpty : TranscriptionResult :=
  { text := [], duration := none, confidence := none, segments := none }

/-- A concrete draft for test inputs. -/
def draftA : RecordingDraft :=
  { title := ['a'], audioUri := ['u'], transcription := trEmpty, tags := none }

/-! ## Claims C3, C6, C7 -/

/-- C3 counterexample: two saveRecording calls at the same clock instant
(`now = 0`) assign the same id to both stored records, and the persisted
list then has a duplicate id. -/
theorem saveRecording_same_instant_cex :
    (saveRecording draftA 0 RecordingsCell.absent).1.id =
      (saveRecording draftA 0
        (saveRecording draftA 0 RecordingsCell.absent).2).1.id ∧
    ¬ ((getAllRecordings
        (saveRecording draftA 0
          (saveRecording draftA 0 RecordingsCell.absent).2).2).map
        Recording.id).Nodup := by
  decide

/-- C3 (amended): saveRecording calls at distinct current-time instants
receive distinct ids, and after any sequence of saves at pairwise-distinct
instants starting from the empty store the persisted ids are pairwise
distinct; two calls within the same millisecond collide (see the
counterexample). -/
theorem saveRecording_distinct_ids (d1 d2 : RecordingDraft) (t1 t2 : Nat)
    (c1 c2 : RecordingsCell) (h : t1 ≠ t2) :
    (saveRecording d1 t1 c1).1.id ≠ (saveRecording d2 t2 c2).1.id ∧
    ∀ l : List (RecordingDraft × Nat), (l.map Prod.snd).Nodup →
      ((getAllRecordings (saveAll l RecordingsCell.absent)).map
        Recording.id).Nodup := by
  constructor
  · intro hcontra
    exact h (natToDec_injective hcontra)
  · intro l hl
    rw [getAll_saveAll]
    simp only [getAllRecordings, List.append_nil, List.map_reverse,
      List.nodup_reverse, List.map_map]
    have : (Recording.id ∘ fun p : RecordingDraft × Nat =>
        mkRecording p.1 p.2) = natToDec ∘ Prod.snd := rfl
    rw [this, ← List.map_map]
    exact hl.map natToDec_injective

/-- Witness for C3: saves at instants 0 and 1 get distinct ids, and the
store after saving at instants 0 and 1 has pairwise-distinct ids. -/
theorem saveRecording_distinct_ids_witness :
    (saveRecording draftA 0 RecordingsCell.absent).1.id ≠
      (saveRecording draftA 1 RecordingsCell.absent).1.id ∧
    ((getAllRecordings
        (saveAll [(draftA, 0), (draftA, 1)] RecordingsCell.absent)).map
      Recording.id).Nodup :=
  ⟨(saveRecording_distinct_ids draftA draftA 0 1 RecordingsCell.absent
      RecordingsCell.absent (by decide)).1,
   (saveRecording_distinct_ids draftA draftA 0 1 RecordingsCell.absent
      RecordingsCell.absent (by decide)).2
      [(draftA, 0), (draftA, 1)] (by decide)⟩

/-- C6: starting from the empty store, a sequence of saveRecording calls
leaves exactly one record per call, listed in reverse insertion order (the
most recently saved record first). -/
theorem getAll_after_saves_reverse_order (l : List (RecordingDraft × Nat)) :
    getAllRecordings (saveAll l RecordingsCell.absent) =
      (l.map (fun p => mkRecording p.1 p.2)).reverse ∧
    (getAllRecordings (saveAll l RecordingsCell.absent)).length = l.length := by
  have h := getAll_saveAll l RecordingsCell.absent
  rw [show getAllRecordings RecordingsCell.absent = [] from rfl,
    List.append_nil] at h
  exact ⟨h, by rw [h]; simp⟩

/-- C7: getAllRecordings is total (every underlying failure is caught): an
absent key and a malformed persisted value both yield the empty list, and a
well-formed value yields the stored records with their serialized date
fields rehydrated. -/
theorem getAllRecordings_total :
    getAllRecordings RecordingsCell.absent = [] ∧
    getAllRecordings RecordingsCell.malformed = [] ∧
    ∀ rs : List RecordingSer,
      getAllRecordings (RecordingsCell.stored rs) = rs.map rehydrateRec :=
  ⟨rfl, rfl, fun _ => rfl⟩

/-! ## Claim C2: deleteRecording -/

/-- A concrete stored record with id "1". -/
def recOne : Recording :=
  { id := ['1'], title := ['t'], audioUri := ['u'], transcription := trEmpty,
    createdAt := 5, updatedAt := 5, tags := none }

/-- A store holding exactly `recOne`. -/
def cellOne : RecordingsCell := .stored [serializeRec recOne]

/-- C2 counterexample: deleting the non-existent id "2" from a store holding
only id "1" returns `true`, not the claimed failure boolean `false`; the
persisted list is indeed left unchanged. -/
theorem deleteRecording_missing_id_cex :
    (deleteRecording ['2'] cellOne).1 = true ∧
    (deleteRecording ['2'] cellOne).1 ≠ false ∧
    getAllRecordings (deleteRecording ['2'] cellOne).2 =
      getAllRecordings cellOne := by
  decide

theorem filter_ne_eq_erase (id : Str) (l : List Recording)
    (hnd : (l.map Recording.id).Nodup) (r : Recording) (hr : r ∈ l)
    (hid : r.id = id) :
    l.filter (fun s => s.id != id) = l.erase r := by
  induction l with
  | nil => cases hr
  | cons x xs ih =>
    simp only [List.map_cons, List.nodup_cons] at hnd
    obtain ⟨hx, hxs⟩ := hnd
    rcases List.mem_cons.mp hr with rfl | hmem
    · rw [List.erase_cons_head, List.filter_cons_of_neg (by simp [hid])]
      apply List.filter_eq_self.mpr
      intro s hs
      simp only [bne_iff_ne, ne_eq]
      intro hcontra
      exact hx (hid ▸ hcontra ▸ List.mem_map_of_mem Recording.id hs)
    · have hxne : x.id ≠ id := by
        intro hcontra
        exact hx (by
          rw [hcontra, ← hid]
          exact List.mem_map_of_mem Recording.id hmem)
      have hxr : ¬(x == r) := by
        simp only [beq_iff_eq]
        intro he
        exact hxne (he ▸ hid)
      rw [List.erase_cons_tail hxr, List.filter_cons_of_pos (by simp [hxne])]
      rw [ih hxs hmem]

/-- C2 (amended): on the success path deleteRecording always returns `true`
(the failure boolean arises only from storage I/O errors); for an id absent
from the list the observable list is unchanged; getRecording for the
deleted id subsequently returns null; and for a present id, under the
unique-ids invariant, exactly that one record is removed. -/
theorem deleteRecording_spec (id : Str) (cell : RecordingsCell) :
    ((∀ r ∈ getAllRecordings cell, r.id ≠ id) →
      (deleteRecording id cell).1 = true ∧
      getAllRecordings (deleteRecording id cell).2 =
        getAllRecordings cell) ∧
    getRecording id (deleteRecording id cell).2 = none ∧
    (((getAllRecordings cell).map Recording.id).Nodup →
      ∀ r ∈ getAllRecordings cell, r.id = id →
        getAllRecordings (deleteRecording id cell).2 =
          (getAllRecordings cell).erase r) := by
  refine ⟨?_, ?_, ?_⟩
  · intro hall
    refine ⟨rfl, ?_⟩
    simp only [deleteRecording]
    rw [getAll_stored_serialize]
    apply List.filter_eq_self.mpr
    intro a ha
    simpa using hall a ha
  · simp only [getRecording, deleteRecording]
    rw [getAll_stored_serialize, List.find?_eq_none]
    intro x hx
    rw [List.mem_filter] at hx
    simpa using hx.2
  · intro hnd r hr hid
    simp only [deleteRecording]
    rw [getAll_stored_serialize]
    exact filter_ne_eq_erase id (getAllRecordings cell) hnd r hr hid

/-- Witness for C2: in the one-record store, deleting the absent id "2"
returns true and changes nothing, and deleting the present id "1" removes
exactly that record. -/
theorem deleteRecording_spec_witness :
    ((deleteRecording ['2'] cellOne).1 = true ∧
      getAllRecordings (deleteRecording ['2'] cellOne).2 =
        getAllRecordings cellOne) ∧
    getRecording ['1'] (deleteRecording ['1'] cellOne).2 = none ∧
    getAllRecordings (deleteRecording ['1'] cellOne).2 =
      (getAllRecordings cellOne).erase recOne :=
  ⟨(deleteRecording_spec ['2'] cellOne).1 (by decide),
   (deleteRecording_spec ['1'] cellOne).2.1,
   (deleteRecording_spec ['1'] cellOne).2.2 (by decide) recOne (by decide)
     (by decide)⟩

/-! ## Claims C4, C5: updateRecording -/

theorem updateList_append (id : Str) (p : RecordingPatch) (now : Nat)
    (l₁ : List Recording) (r : Recording) (l₂ : List Recording)
    (h₁ : ∀ s ∈ l₁, (s.id == id) = false) (h₂ : r.id = id) :
    updateList id p now (l₁ ++ r :: l₂) =
      (some (applyPatch r p now), l₁ ++ applyPatch r p now :: l₂) := by
  induction l₁ with
  | nil => simp [updateList, h₂]
  | cons x xs ih =>
    have hx := h₁ x (List.mem_cons_self x xs)
    have ihh := ih (fun s hs => h₁ s (List.mem_cons_of_mem x hs))
    simp [updateList, hx, ihh]

theorem updateRecording_found (id : Str) (p : RecordingPatch) (now : Nat)
    (cell : RecordingsCell) (l₁ l₂ : List Recording) (r : Recording)
    (hcell : getAllRecordings cell = l₁ ++ r :: l₂)
    (h₁ : ∀ s ∈ l₁, (s.id == id) = false) (h₂ : r.id = id) :
    (updateRecording id p now cell).1 = some (applyPatch r p now) ∧
    getAllRecordings (updateRecording id p now cell).2 =
      l₁ ++ applyPatch r p now :: l₂ := by
  have hu := updateList_append id p now l₁ r l₂ h₁ h₂
  unfold updateRecording
  rw [hcell, hu]
  exact ⟨rfl, getAll_stored_serialize _⟩

/-- The `{title: "X"}` argument of the claim: only the title key present. -/
def titlePatch (x : Str) : RecordingPatch :=
  { id := none, title := some x, audioUri := none, transcription := none,
    createdAt := none, updatedAt := none, tags := none }

/-- C4 counterexample: the store holds id "1" with updatedAt 5; updating its
title at a call whose clock still reads 5 leaves updatedAt at 5 — equal to,
not strictly greater than, the record's previous updatedAt. -/
theorem updateRecording_updatedAt_cex :
    (updateRecording ['1'] (titlePatch ['X']) 5 cellOne).1.map
      Recording.updatedAt = some 5 ∧
    recOne.updatedAt = 5 := by
  decide

/-- C4 (amended): updating `{title: "X"}` on the record matching `id`
replaces only title and updatedAt — id, audioUri, transcription, createdAt,
tags and every other record are unchanged — sets updatedAt to the call-time
clock `now`, and strictly advances it exactly when the clock has moved past
the record's previous updatedAt. -/
theorem updateRecording_title_frame (x : Str) (id : Str) (now : Nat)
    (cell : RecordingsCell) (l₁ l₂ : List Recording) (r : Recording)
    (hcell : getAllRecordings cell = l₁ ++ r :: l₂)
    (h₁ : ∀ s ∈ l₁, (s.id == id) = false) (h₂ : r.id = id) :
    (updateRecording id (titlePatch x) now cell).1 =
      some { r with title := x, updatedAt := now } ∧
    getAllRecordings (updateRecording id (titlePatch x) now cell).2 =
      l₁ ++ { r with title := x, updatedAt := now } :: l₂ ∧
    (r.updatedAt < now ↔ r.updatedAt <
      ({ r with title := x, updatedAt := now } : Recording).updatedAt) := by
  have h := updateRecording_found id (titlePatch x) now cell l₁ l₂ r hcell h₁ h₂
  have hp : applyPatch r (titlePatch x) now =
      { r with title := x, updatedAt := now } := rfl
  rw [hp] at h
  exact ⟨h.1, h.2, Iff.rfl⟩

/-- Witness for C4: updating the title of the only record at clock 9. -/
theorem updateRecording_title_frame_witness :
    (updateRecording ['1'] (titlePatch ['X']) 9 cellOne).1 =
      some { recOne with title := ['X'], updatedAt := 9 } ∧
    getAllRecordings (updateRecording ['1'] (titlePatch ['X']) 9 cellOne).2 =
      [{ recOne with title := ['X'], updatedAt := 9 }] := by
  have h := updateRecording_title_frame ['X'] ['1'] 9 cellOne [] [] recOne
    (by decide) (by intro s hs; cases hs) (by decide)
  exact ⟨h.1, by simpa using h.2.1⟩

/-- A patch carrying id and createdAt keys, as `Partial<Recording>` allows. -/
def idPatch : RecordingPatch :=
  { id := some ['9'], title := none, audioUri := none, transcription := none,
    createdAt := some 99, updatedAt := none, tags := none }

/-- C5 counterexample: updateRecording with a patch containing id and
createdAt keys overrides both on the stored record: id "1" becomes "9" and
createdAt 5 becomes 99 — they are not immutable against such patches. -/
theorem updateRecording_id_override_cex :
    (updateRecording ['1'] idPatch 7 cellOne).1.map Recording.id =
      some ['9'] ∧
    (updateRecording ['1'] idPatch 7 cellOne).1.map Recording.createdAt =
      some 99 ∧
    recOne.id = ['1'] ∧ recOne.createdAt = 5 := by
  decide

/-- C5 (amended): when the patch contains neither an id key nor a createdAt
key, the matched record keeps the id and createdAt it was created with. -/
theorem updateRecording_preserves_id_createdAt (id : Str)
    (p : RecordingPatch) (now : Nat) (cell : RecordingsCell)
    (l₁ l₂ : List Recording) (r : Recording)
    (hcell : getAllRecordings cell = l₁ ++ r :: l₂)
    (h₁ : ∀ s ∈ l₁, (s.id == id) = false) (h₂ : r.id = id)
    (hid : p.id = none) (hca : p.createdAt = none) :
    (updateRecording id p now cell).1.map Recording.id = some r.id ∧
    (updateRecording id p now cell).1.map Recording.createdAt =
      some r.createdAt := by
  have h := (updateRecording_found id p now cell l₁ l₂ r hcell h₁ h₂).1
  rw [h]
  simp [applyPatch, hid, hca]

/-- Witness for C5: a title-only patch leaves id "1" and createdAt 5 on the
stored record. -/
theorem updateRecording_preserves_id_createdAt_witness :
    (updateRecording ['1'] (titlePatch ['X']) 9 cellOne).1.map
      Recording.id = some recOne.id ∧
    (updateRecording ['1'] (titlePatch ['X']) 9 cellOne).1.map
      Recording.createdAt = some recOne.createdAt :=
  updateRecording_preserves_id_createdAt ['1'] (titlePatch ['X']) 9 cellOne
    [] [] recOne (by decide) (by intro s hs; cases hs) (by decide) rfl rfl

/-! ## Remote TranscriptionService (src/App.tsx lines 300-395) -/

/-- Outcome of one fetch round-trip as the service code observes it: the
request may throw in transit (or a response body may fail to parse), the
response may carry a non-successful HTTP status with an optional error
envelope message, or it may succeed with a parsed body. -/
inductive HttpOutcome (β : Type) where
  | transportError (msg : Str)
  | httpError (errMsg : Option Str)
  | ok (body : β)

/-- A failed round-trip: anything but a parsed successful response. -/
def HttpOutcome.isFail {β : Type} : HttpOutcome β → Bool
  | .transportError _ => true
  | .httpError _ => true
  | .ok _ => false

/-- Parsed JSON body of a successful transcription response. -/
structure TranscribeBody where
  text : Str
  duration : Option Nat
  segments : Option (List Segment)

/-- transcribeAudio (lines 308-353): a missing audio file or any failed
round-trip is rethrown to the caller (the catch logs and rethrows); a
successful response is mapped onto TranscriptionResult, confidence never
set. -/
def transcribeAudio (fileExists : Bool) (out : HttpOutcome TranscribeBody) :
    Except Str TranscriptionResult :=
  if !fileExists then .error ("Audio file not found".toList)
  else
    match out with
    | .transportError m => .error m
    | .httpError m => .error (m.getD ("Transcription failed".toList))
    | .ok b =>
      .ok { text := b.text
            duration := b.duration
            confidence := none
            segments := b.segments }

/-- The three enhancement modes. -/
inductive EnhanceMode where
  | summary
  | bullets
  | action_items

/-- Parsed JSON body of a completion response; every level may be absent. -/
structure ChatMessage where
  content : Option Str

structure ChatChoice where
  message : Option ChatMessage

structure ChatBody where
  choices : List ChatChoice

/-- The optional chain `result.choices[0]?.message?.content`. -/
def extractContent (b : ChatBody) : Option Str :=
  match b.choices.head? with
  | none => none
  | some c =>
    match c.message with
    | none => none
    | some m => m.content

set_option linter.unusedVariables false in
/-- enhanceText (lines 355-394): a transport error or a non-successful
status is caught and the original text returned; on a successful response
the first choice's content is returned, falling back to the original text
when the chain is absent — or when the content is the empty string, since
JS `||` treats `""` as falsy. The mode selects only the prompt sent, which
the round-trip outcome parameter abstracts. -/
def enhanceText (text : Str) (mode : EnhanceMode)
    (out : HttpOutcome ChatBody) : Except Str Str :=
  match out with
  | .transportError _ => .ok text
  | .httpError _ => .ok text
  | .ok b =>
    .ok (match extractContent b with
      | some c => if c = [] then text else c
      | none => text)

/-- C8: enhanceText never rejects — every outcome yields an ok result, and
any failure (transport error, non-successful status, or a response with no
first-choice content) yields the original text unchanged — whereas
transcribeAudio propagates every failed round-trip to its caller as an
error. -/
theorem enhanceText_never_raises (text : Str) (mode : EnhanceMode)
    (out : HttpOutcome ChatBody) :
    (∃ s, enhanceText text mode out = Except.ok s) ∧
    (out.isFail = true → enhanceText text mode out = Except.ok text) ∧
    (∀ b, out = HttpOutcome.ok b → extractContent b = none →
      enhanceText text mode out = Except.ok text) ∧
    (∀ (ex : Bool) (o : HttpOutcome TranscribeBody), o.isFail = true →
      ∃ e, transcribeAudio ex o = Except.error e) := by
  refine ⟨?_, ?_, ?_, ?_⟩
  · cases out with
    | transportError m => exact ⟨text, rfl⟩
    | httpError m => exact ⟨text, rfl⟩
    | ok b => exact ⟨_, rfl⟩
  · intro h
    cases out <;> simp_all [enhanceText, HttpOutcome.isFail]
  · intro b hb hc
    subst hb
    simp [enhanceText, hc]
  · intro ex o ho
    cases ex with
    | false => exact ⟨_, rfl⟩
    | true =>
      cases o with
      | transportError m => exact ⟨_, rfl⟩
      | httpError m => exact ⟨_, rfl⟩
      | ok b => simp [HttpOutcome.isFail] at ho

/-- Witness for C8: a 500-style response leaves the text unchanged through
enhanceText and raises out of transcribeAudio. -/
theorem enhanceText_never_raises_witness :
    enhanceText ("abc".toList) EnhanceMode.bullets
      (HttpOutcome.httpError none) = Except.ok ("abc".toList) ∧
    ∃ e, transcribeAudio true
      (HttpOutcome.httpError (some ("boom".toList))) = Except.error e :=
  ⟨(enhanceText_never_raises ("abc".toList) EnhanceMode.bullets
      (HttpOutcome.httpError none)).2.1 rfl,
   (enhanceText_never_raises ("abc".toList) EnhanceMode.bullets
      (HttpOutcome.httpError none)).2.2.2 true
      (HttpOutcome.httpError (some ("boom".toList))) rfl⟩

/-! ## Recorder stop path (src/src/components/AudioRecorder.tsx 83-117) -/

/-- The component state relevant to stopRecording: whether the recording
object is set, the UI flags, and how many times onRecordingComplete has
fired. React state updates are modelled as visible to the event-loop turns
that follow them. -/
structure RecorderState where
  recording : Bool
  isRecording : Bool
  isPaused : Bool
  isProcessing : Bool
  completed : Nat
deriving DecidableEq

/-- The entry guard `if (!recording || isProcessing) return`. -/
def stopGuardOk (s : RecorderState) : Bool := s.recording && !s.isProcessing

/-- The synchronous prefix of stopRecording (lines 84-97): when the guard
passes, raise the processing flag, clear the recording flags, stop the
ticker; otherwise return without effect. The Bool reports whether this call
is now in flight. -/
def stopEnter (s : RecorderState) : RecorderState × Bool :=
  if stopGuardOk s then
    ({ s with isProcessing := true, isRecording := false, isPaused := false },
      true)
  else (s, false)

/-- Resumption of an in-flight stop whose awaited platform calls succeeded
(lines 99-110 plus the finally on 115): fire onRecordingComplete when a
capture URI exists, clear the recording object, drop the processing flag. -/
def stopFinishOk (uriPresent : Bool) (s : RecorderState) : RecorderState :=
  { s with recording := false
           isProcessing := false
           completed := s.completed + (if uriPresent then 1 else 0) }

/-- Resumption whose awaited platform call threw (catch on 111-113 plus the
finally): no callback, the recording object stays set, the processing flag
is dropped. -/
def stopFinishErr (s : RecorderState) : RecorderState :=
  { s with isProcessing := false }

/-- Event-loop actions on the stop path: a stopRecording invocation runs
its synchronous prefix; an in-flight stop resumes and finishes, normally or
through the catch. -/
inductive StopAction where
  | call
  | finishOk (uriPresent : Bool)
  | finishErr

/-- A recorder state plus the number of in-flight stops — calls past the
guard whose resumption has not run yet. -/
structure StopWorld where
  st : RecorderState
  inFlight : Nat
deriving DecidableEq

/-- One event-loop turn. A finish action with nothing in flight has no
continuation to run and is a no-op. -/
def stepStop (w : StopWorld) : StopAction → StopWorld
  | .call =>
    let e := stopEnter w.st
    { st := e.1, inFlight := w.inFlight + (if e.2 then 1 else 0) }
  | .finishOk u =>
    if w.inFlight = 0 then w
    else { st := stopFinishOk u w.st, inFlight := w.inFlight - 1 }
  | .finishErr =>
    if w.inFlight = 0 then w
    else { st := stopFinishErr w.st, inFlight := w.inFlight - 1 }

/-- A recorder mid-capture: recording object set, no stop in flight, no
completion fired yet. -/
def recorderRecording : StopWorld :=
  { st := { recording := true
            isRecording := true
            isPaused := false
            isProcessing := false
            completed := 0 }
    inFlight := 0 }

def runStops (w : StopWorld) (acts : List StopAction) : StopWorld :=
  acts.foldl stepStop w

/-- The re-entrancy invariant: at most one stop is ever past the guard, the
callback count plus the in-flight count never exceeds one, the processing
flag tracks the in-flight stop exactly, and the callback cannot have fired
while the recording object is still set. -/
def stopInv (w : StopWorld) : Prop :=
  w.inFlight ≤ 1 ∧ w.st.completed + w.inFlight ≤ 1 ∧
  (w.st.isProcessing = true ↔ w.inFlight = 1) ∧
  (w.st.recording = true → w.st.completed = 0)

theorem stopInv_step (w : StopWorld) (a : StopAction) (h : stopInv w) :
    stopInv (stepStop w a) := by
  obtain ⟨h1, h2, h3, h4⟩ := h
  cases a with
  | call =>
    by_cases hg : stopGuardOk w.st = true
    · have hrec : w.st.recording = true := by
        have := hg
        simp [stopGuardOk, Bool.and_eq_true] at this
        exact this.1
      have hproc : w.st.isProcessing = false := by
        have := hg
        simp [stopGuardOk, Bool.and_eq_true] at this
        exact this.2
      have hf : w.inFlight = 0 := by
        rcases Nat.lt_or_ge w.inFlight 1 with hlt | hge
        · omega
        · exfalso
          have : w.inFlight = 1 := by omega
          have := h3.mpr this
          rw [hproc] at this
          cases this
      have hc : w.st.completed = 0 := h4 hrec
      simp [stepStop, stopEnter, hg, stopInv, hf, hc, hrec]
    · have hg' : stopGuardOk w.st = false := by
        cases hval : stopGuardOk w.st
        · rfl
        · exact absurd hval hg
      simp only [stepStop, stopEnter, hg', Bool.false_eq_true, if_false]
      exact ⟨by simpa using h1, by simpa using h2, by simpa using h3,
        by simpa using h4⟩
  | finishOk u =>
    by_cases hz : w.inFlight = 0
    · simp only [stepStop, hz, if_pos rfl]
      exact ⟨h1, h2, h3, h4⟩
    · have hf : w.inFlight = 1 := by omega
      have hc : w.st.completed = 0 := by omega
      simp only [stepStop, if_neg hz]
      refine ⟨?_, ?_, ?_, ?_⟩
      · show w.inFlight - 1 ≤ 1
        omega
      · show (stopFinishOk u w.st).completed + (w.inFlight - 1) ≤ 1
        simp [stopFinishOk, hc, hf]
        cases u <;> simp
      · show (stopFinishOk u w.st).isProcessing = true ↔ w.inFlight - 1 = 1
        simp [stopFinishOk, hf]
      · intro hcontra
        simp [stopFinishOk] at hcontra
  | finishErr =>
    by_cases hz : w.inFlight = 0
    · simp only [stepStop, hz, if_pos rfl]
      exact ⟨h1, h2, h3, h4⟩
    · have hf : w.inFlight = 1 := by omega
      have hc : w.st.completed = 0 := by omega
      simp only [stepStop, if_neg hz]
      refine ⟨?_, ?_, ?_, ?_⟩
      · show w.inFlight - 1 ≤ 1
        omega
      · show (stopFinishErr w.st).completed + (w.inFlight - 1) ≤ 1
        simp [stopFinishErr]
        omega
      · show (stopFinishErr w.st).isProcessing = true ↔ w.inFlight - 1 = 1
        simp [stopFinishErr, hf]
      · intro _
        simpa [stopFinishErr] using hc

theorem stopInv_run (acts : List StopAction) :
    ∀ w, stopInv w → stopInv (runStops w acts) := by
  induction acts with
  | nil => intro w h; exact h
  | cons a rest ih =>
    intro w h
    exact ih (stepStop w a) (stopInv_step w a h)

/-- C9: starting from a recorder mid-capture, every event-loop interleaving
of stopRecording invocations and resumptions of in-flight stops — in
particular a second call arriving while a prior stop's finalization is
still in flight, which the processing-flag guard turns away — fires
onRecordingComplete at most once. -/
theorem stopRecording_completes_at_most_once (acts : List StopAction) :
    (runStops recorderRecording acts).st.completed ≤ 1 := by
  have h := stopInv_run acts recorderRecording
    (by refine ⟨by decide, by decide, by decide, fun _ => rfl⟩)
  obtain ⟨-, h2, -, -⟩ := h
  omega

end VoiceflowMobile
